import Mathlib

/-!
Verification of the rolling file appender (v2/rolling_file_appender/rolling_file_appender.go).

The Go source declares every method of `RollingFileAppender` on a VALUE receiver
(`func (self RollingFileAppender) ...`), so assignments to `self.file` or
`self.curFileSize` inside a method mutate a per-call copy of the struct.  The
embedding reflects this faithfully: each method is a function that takes the
receiver by value and returns its (locally mutated) copy together with the
world; at every call site the returned copy is discarded exactly as Go
discards it, while effects on the shared world (file system operations,
error-handler invocations, channel contents) persist.

The world models the operating system: a table of file handles (open flag plus
the list of chunks written), an oracle deciding the outcome of each fallible
system call in order (empty oracle = every call succeeds), the trace of error
values passed to the error handler, the list of successful renames, the
current wall-clock time, and the caller information that `runtime.Caller`
would report.
-/

namespace Slogger

/-- Modelled from the spec: the `slogger` parent package (level constants) is
not under src/; the spec describes an ordered severity.  Only `info` and
`warn` are used by the appender. -/
inductive Level where
  | debug
  | info
  | warn
  | error
deriving DecidableEq, Repr

/-- Wall-clock instant, second resolution, as used by `time.Now()` for
rotated filenames and record timestamps. -/
structure Tm where
  year : Nat
  month : Nat
  day : Nat
  hour : Nat
  minute : Nat
  second : Nat
deriving DecidableEq, Repr

/-- Modelled from the spec: the `slogger.Log` record type lives in the parent
package, not under src/.  The spec's data model lists prefix, level,
timestamp, source file, source line, message template and positional
arguments.  Arguments are modelled as naturals (the only argument the
appender itself ever supplies is the queue capacity). -/
structure Log where
  pfx : String
  level : Level
  filename : String
  line : Int
  timestamp : Tm
  messageFmt : String
  args : List Nat
deriving DecidableEq, Repr

/-- Errors delivered to the error handler, mirroring the five error structs of
the source (`CloseError`, `NoFileError`, `OpenError`, `RenameError`,
`WriteError`) with the fields each carries. -/
inductive AppErr where
  | closeError (filename : String) (cause : String)
  | noFileError
  | openError (filename : String) (cause : String)
  | renameError (oldFilename : String) (newFilename : String) (cause : String)
  | writeError (filename : String) (cause : String)
deriving DecidableEq, Repr

/-- One open-file table entry: whether the descriptor is still open, and the
chunks successfully written through it (in order). -/
structure FileRec where
  isOpen : Bool
  chunks : List String
deriving DecidableEq, Repr

/-- File handles are indices into the world's file table, allocated
sequentially like file descriptors. -/
abbrev Handle := Nat

/-- The state of the operating system as seen by the appender. -/
structure World where
  files : List FileRec
  oracle : List (Option String)
  events : List AppErr
  renames : List (String × String)
  clock : Tm
  ci : Option (String × Int)
deriving DecidableEq, Repr

/-- Pop the next fallible-system-call outcome from the oracle; an exhausted
oracle means the call succeeds. -/
def takeOracle (w : World) : Option String × World :=
  match w.oracle with
  | [] => (none, w)
  | r :: rest => (r, { w with oracle := rest })

/-- Invoke the error handler: the call is recorded on the event trace. -/
def emit (e : AppErr) (w : World) : World :=
  { w with events := w.events ++ [e] }

/-- `file.WriteString(msg)`: fails deterministically on a closed or invalid
handle (as the OS does); on an open handle the oracle decides, and on success
the chunk is recorded. -/
def writeString (h : Handle) (s : String) (w : World) : Option String × World :=
  match w.files.get? h with
  | none => (some "file already closed", w)
  | some f =>
    if f.isOpen then
      let (r, w1) := takeOracle w
      match r with
      | none => (none, { w1 with files := w1.files.set h ⟨true, f.chunks ++ [s]⟩ })
      | some c => (some c, w1)
    else (some "file already closed", w)

/-- `file.Close()`: closing an already-closed handle fails deterministically;
otherwise the handle is marked closed and the oracle decides the reported
error (a close error does not keep the descriptor open). -/
def closeFile (h : Handle) (w : World) : Option String × World :=
  match w.files.get? h with
  | none => (some "invalid argument", w)
  | some f =>
    if f.isOpen then
      let (r, w1) := takeOracle w
      (r, { w1 with files := w1.files.set h ⟨false, f.chunks⟩ })
    else (some "file already closed", w)

/-- `os.Rename(old, new)`: the oracle decides; a successful rename is
recorded on the world's rename trace. -/
def renameOp (oldFilename newFilename : String) (w : World) : Option String × World :=
  let (r, w1) := takeOracle w
  match r with
  | none => (none, { w1 with renames := w1.renames ++ [(oldFilename, newFilename)] })
  | some c => (some c, w1)

/-- `os.OpenFile` / `os.Create`: the oracle decides; on success a fresh
handle (the next table index) is allocated, open, with no recorded chunks. -/
def openNew (w : World) : Except String Handle × World :=
  let (r, w1) := takeOracle w
  match r with
  | none => (Except.ok w1.files.length, { w1 with files := w1.files ++ [⟨true, []⟩] })
  | some c => (Except.error c, w1)

/-- Queue capacity: `const APPEND_CHANNEL_SIZE = 4096`. -/
def APPEND_CHANNEL_SIZE : Nat := 4096

/-- `curFileSize` is a Go `uint64`; additions wrap modulo 2^64. -/
def U64 : Nat := 2 ^ 64

/-- The `RollingFileAppender` struct.  The channels `appendCh` and `syncCh`
are shared reference values and are modelled outside the struct (as the queue
of the loop configuration); `errHandler` is modelled by the world's event
trace; `headerGenerator` is `none` for a nil generator, otherwise the string
the generator returns. -/
structure Appender where
  maxFileSize : Nat
  file : Option Handle
  absPath : String
  curFileSize : Nat
  headerGenerator : Option String
deriving DecidableEq, Repr

/-- `simpleLog`: builds a record from prefix, level, caller information
(`runtime.Caller`'s result, abstracted to an optional file/line pair with the
source's fallback values), the current time, a message format and arguments. -/
def simpleLog (pfx : String) (level : Level) (caller : Option (String × Int))
    (now : Tm) (messageFmt : String) (args : List Nat) : Log :=
  { pfx := pfx, level := level,
    filename := match caller with | some fl => fl.1 | none => "UNKNOWN_FILE",
    line := match caller with | some fl => fl.2 | none => -1,
    timestamp := now, messageFmt := messageFmt, args := args }

/-- `internalWarningLog`: a WARN record with prefix "RollingFileAppender". -/
def internalWarningLog (caller : Option (String × Int)) (now : Tm)
    (messageFmt : String) (args : List Nat) : Log :=
  simpleLog "RollingFileAppender" Level.warn caller now messageFmt args

/-- `fullWarningLog`: the synthetic overflow-warning record, naming the queue
capacity in its arguments. -/
def fullWarningLog (caller : Option (String × Int)) (now : Tm) : Log :=
  internalWarningLog caller now
    "appendCh is full. You may want to increase APPEND_CHANNEL_SIZE (currently %d)."
    [APPEND_CHANNEL_SIZE]

/-- Zero-padded two-digit field, Go's `%02d`. -/
def pad2 (n : Nat) : String :=
  if n < 10 then "0" ++ toString n else toString n

/-- `newRotatedFilename`: `<base>.<year>-<month>-<day>T<hour>-<minute>-<second>`
with two-digit zero-padded fields except the year. -/
def newRotatedFilename (baseFilename : String) (now : Tm) : String :=
  baseFilename ++ "." ++ toString now.year ++ "-" ++ pad2 now.month ++ "-"
    ++ pad2 now.day ++ "T" ++ pad2 now.hour ++ "-" ++ pad2 now.minute ++ "-"
    ++ pad2 now.second

/-- `Append`: non-blocking enqueue if the buffered channel has room,
otherwise enqueue the overflow warning (blocking) followed by the original
record (blocking).  Returns Go's `error` result, which is always nil.  The
receiver is passed by value but only the shared channel is touched, modelled
as the queue list. -/
def Append (_self : Appender) (q : List Log) (log : Log)
    (caller : Option (String × Int)) (now : Tm) : List Log × Option String :=
  if q.length < APPEND_CHANNEL_SIZE then
    (q ++ [log], none)
  else
    (q ++ [fullWarningLog caller now, log], none)

/-- `renameLogFile`: on rename failure report a `RenameError`, reopen the old
path read/write; on reopen success install the handle on the receiver COPY,
otherwise zero the copy's size counter, null its handle and report an
`OpenError`.  Returns (success flag, the method's local receiver copy, world);
Go callers receive only the flag, the copy is discarded. -/
def renameLogFile (self : Appender) (oldFilename newFilename : String)
    (w : World) : Bool × Appender × World :=
  let (err, w1) := renameOp oldFilename newFilename w
  match err with
  | some cause =>
    let w2 := emit (AppErr.renameError oldFilename newFilename cause) w1
    let (res, w3) := openNew w2
    match res with
    | Except.ok file => (false, { self with file := some file }, w3)
    | Except.error e2 =>
      (false, { self with curFileSize := 0, file := none },
        emit (AppErr.openError oldFilename e2) w3)
  | none => (true, { self with curFileSize := 0 }, w1)

mutual

/-- Fuel-indexed body of `reallyAppend`: if the handle is nil report
`NoFileError`; format the record, write it; on write failure report
`WriteError` (path and cause); on success, if size is tracked add the byte
count to the copy's counter and rotate when it exceeds the maximum.  The
recursive call chain is reallyAppend → rotate → logHeader →
reallyAppend (with `trackSize = false`, which makes no further call), so its
depth never exceeds four frames and the fuel of the entry points below is
never exhausted; the fuel-zero fallback is dead code. -/
def reallyAppendF (fmt : Log → String) :
    Nat → Appender → Log → Bool → World → Appender × World
  | 0, self, _, _, w => (self, w)
  | fuel + 1, self, log, trackSize, w =>
    match self.file with
    | none => (self, emit AppErr.noFileError w)
    | some h =>
      let msg := fmt log
      let (err, w1) := writeString h msg w
      match err with
      | some cause => (self, emit (AppErr.writeError self.absPath cause) w1)
      | none =>
        let n := msg.utf8ByteSize
        match trackSize with
        | false => (self, w1)
        | true =>
          let self1 : Appender :=
            { self with curFileSize := (self.curFileSize + n) % U64 }
          if self1.maxFileSize < self1.curFileSize then
            let (_, w2) := rotateF fmt fuel self1 w1
            (self1, w2)
          else
            (self1, w1)

/-- Fuel-indexed body of `rotate`: close the current handle (report a
`CloseError` on failure but continue); rename the active file to its
timestamped name via `renameLogFile` — of whose result Go keeps only the
boolean, so the renamed copy's state changes, including the counter reset,
are discarded; on rename failure return; otherwise create a fresh file at
the original path (on failure report `OpenError` and null the copy's
handle), install the new handle on the copy and re-emit the header. -/
def rotateF (fmt : Log → String) :
    Nat → Appender → World → Appender × World
  | 0, self, w => (self, w)
  | fuel + 1, self, w =>
    let (cerr, w1) :=
      match self.file with
      | some h => closeFile h w
      | none => (some "invalid argument", w)
    let w2 :=
      match cerr with
      | some cause => emit (AppErr.closeError self.absPath cause) w1
      | none => w1
    let r := renameLogFile self self.absPath
      (newRotatedFilename self.absPath w2.clock) w2
    let ok := r.1
    let w3 := r.2.2
    match ok with
    | false => (self, w3)
    | true =>
      let (res, w4) := openNew w3
      match res with
      | Except.error cause =>
        ({ self with file := none },
          emit (AppErr.openError self.absPath cause) w4)
      | Except.ok file =>
        let self1 : Appender := { self with file := some file }
        let r2 := logHeaderF fmt fuel self1 w4
        (self1, r2.2)

/-- Fuel-indexed body of `logHeader`: when a header generator is configured,
build the header record (prefix "header", level INFO) and write it through
`reallyAppend` with size tracking disabled — the source comment: do not
count the header towards rotation, to prevent infinite rotation when the
maximum size is smaller than the header. -/
def logHeaderF (fmt : Log → String) :
    Nat → Appender → World → Appender × World
  | 0, self, w => (self, w)
  | fuel + 1, self, w =>
    match self.headerGenerator with
    | none => (self, w)
    | some gen =>
      let log := simpleLog "header" Level.info w.ci w.clock gen []
      reallyAppendF fmt fuel self log false w

end

/-- `reallyAppend` entry point (fuel 4 covers the bounded call chain). -/
def reallyAppend (fmt : Log → String) (self : Appender) (log : Log)
    (trackSize : Bool) (w : World) : Appender × World :=
  reallyAppendF fmt 4 self log trackSize w

/-- `rotate` entry point. -/
def rotate (fmt : Log → String) (self : Appender) (w : World) :
    Appender × World :=
  rotateF fmt 4 self w

/-- `logHeader` entry point. -/
def logHeader (fmt : Log → String) (self : Appender) (w : World) :
    Appender × World :=
  logHeaderF fmt 4 self w

/-- `New`: open (or create) the file in append mode, read its size to seed
the counter, start the writer loop (modelled by the step relation below) and
emit the header through the caller's copy of the freshly built appender.
The stat'ed size of a pre-existing file is the `initSize` parameter. -/
def New (fmt : Log → String) (absPath : String) (maxFileSize : Nat)
    (headerGenerator : Option String) (initSize : Nat) (w : World) :
    Except String Appender × World :=
  let (res, w1) := openNew w
  match res with
  | Except.error e => (Except.error e, w1)
  | Except.ok file =>
    let appender : Appender :=
      { maxFileSize := maxFileSize, file := some file, absPath := absPath,
        curFileSize := initSize % U64, headerGenerator := headerGenerator }
    let r := logHeader fmt appender w1
    (Except.ok appender, r.2)

/-- `Close` (file-closing half): after `waitUntilEmpty` (the drain protocol,
modelled by the closer states of the loop configuration) the caller's copy
closes the underlying descriptor; the struct field itself is not cleared. -/
def Close (self : Appender) (w : World) : Option String × World :=
  match self.file with
  | none => (some "invalid argument", w)
  | some h => closeFile h w

/-- State of a `waitUntilEmpty` caller: no caller, a request pending on
`syncCh`, a reply received on `replyCh`, or the caller returned. -/
inductive CloserSt where
  | idle
  | asked
  | gotReply (b : Bool)
  | done
deriving DecidableEq, Repr

/-- Configuration of the running system: the writer goroutine's copy of the
appender (taken when `go appender.listenForAppends()` dereferenced the
pointer), the contents of `appendCh`, the loop's `needsSync` flag, the state
of a `waitUntilEmpty` caller, and the world. -/
structure Config where
  self : Appender
  queue : List Log
  needsSync : Bool
  closer : CloserSt
  w : World
deriving DecidableEq, Repr

/-- Small-step semantics of `listenForAppends` interleaved with
`waitUntilEmpty`.  Each record is processed by `reallyAppend` on a copy of
the loop's appender; the copy is discarded (value receiver), only the world
effect remains.  In the `needsSync` state the select has a default branch, so
a pending record is always taken and the sync happens only on an empty
queue; in the clean state the loop chooses between a record and a sync
request; the sync reply is `len(appendCh) <= 0`. -/
inductive loopStep (fmt : Log → String) : Config → Config → Prop where
  | recvDirty (c : Config) (log : Log) (rest : List Log) :
      c.needsSync = true → c.queue = log :: rest →
      loopStep fmt c { c with
        queue := rest,
        w := (reallyAppend fmt c.self log true c.w).2 }
  | syncStep (c : Config) :
      c.needsSync = true → c.queue = [] →
      loopStep fmt c { c with needsSync := false }
  | recvClean (c : Config) (log : Log) (rest : List Log) :
      c.needsSync = false → c.queue = log :: rest →
      loopStep fmt c { c with
        queue := rest,
        needsSync := true,
        w := (reallyAppend fmt c.self log true c.w).2 }
  | replyStep (c : Config) :
      c.needsSync = false → c.closer = CloserSt.asked →
      loopStep fmt c { c with closer := CloserSt.gotReply (decide (c.queue.length ≤ 0)) }
  | closerRetry (c : Config) :
      c.closer = CloserSt.gotReply false →
      loopStep fmt c { c with closer := CloserSt.asked }
  | closerDone (c : Config) :
      c.closer = CloserSt.gotReply true →
      loopStep fmt c { c with closer := CloserSt.done }

/-- Reflexive-transitive closure of the loop semantics. -/
def loopSteps (fmt : Log → String) : Config → Config → Prop :=
  Relation.ReflTransGen (loopStep fmt)

/-- Sample clock used by concrete witnesses. -/
def tmW : Tm := ⟨2026, 1, 2, 3, 4, 5⟩

/-- Sample external formatter used by concrete witnesses: renders the
message template (five ASCII bytes for the sample record). -/
def fmtW : Log → String := fun l => l.messageFmt

/-- Sample record used by concrete witnesses; its rendering is 5 bytes. -/
def lW : Log := ⟨"p", Level.info, "f", 1, tmW, "aaaaa", []⟩

/-- Sample world used by concrete witnesses: one open empty file, an empty
oracle (every system call succeeds), nothing reported yet. -/
def wW : World := ⟨[⟨true, []⟩], [], [], [], tmW, none⟩

/-- Sample appender used by concrete witnesses: ample maximum size, the
first handle, counter seeded at zero. -/
def aW2 : Appender := ⟨100, some 0, "/x", 0, none⟩

section Lemmas

/-- An exhausted oracle answers success and leaves the world unchanged. -/
theorem takeOracle_nil (w : World) (hor : w.oracle = []) :
    takeOracle w = (none, w) := by
  unfold takeOracle
  rw [hor]

/-- Writing to an open handle with a success oracle appends the chunk. -/
theorem writeString_ok (h : Handle) (s : String) (cs : List String)
    (w : World) (hget : w.files.get? h = some ⟨true, cs⟩)
    (hor : w.oracle = []) :
    writeString h s w =
      (none, { w with files := w.files.set h ⟨true, cs ++ [s]⟩ }) := by
  unfold writeString
  rw [hget, takeOracle_nil w hor]
  simp

/-- Writing to a closed handle fails without consulting the oracle. -/
theorem writeString_closed (h : Handle) (s : String) (cs : List String)
    (w : World) (hget : w.files.get? h = some ⟨false, cs⟩) :
    writeString h s w = (some "file already closed", w) := by
  unfold writeString
  rw [hget]
  simp

/-- Writing to an open handle when the oracle orders a failure returns the
cause and changes no file content. -/
theorem writeString_fail (h : Handle) (s : String) (cs : List String)
    (c : String) (rest : List (Option String)) (w : World)
    (hget : w.files.get? h = some ⟨true, cs⟩)
    (hor : w.oracle = some c :: rest) :
    writeString h s w = (some c, { w with oracle := rest }) := by
  unfold writeString takeOracle
  rw [hget, hor]
  simp

/-- A write whose oracle head orders success pops it and appends the chunk. -/
theorem writeString_ok_cons (h : Handle) (s : String) (cs : List String)
    (tail : List (Option String)) (w : World)
    (hget : w.files.get? h = some ⟨true, cs⟩)
    (hor : w.oracle = none :: tail) :
    writeString h s w =
      (none, { w with oracle := tail,
                      files := w.files.set h ⟨true, cs ++ [s]⟩ }) := by
  unfold writeString takeOracle
  rw [hget, hor]
  simp

/-- Closing an open handle when the oracle orders a failure still marks the
handle closed and returns the cause. -/
theorem closeFile_fail_cons (h : Handle) (cs : List String) (c : String)
    (tail : List (Option String)) (w : World)
    (hget : w.files.get? h = some ⟨true, cs⟩)
    (hor : w.oracle = some c :: tail) :
    closeFile h w =
      (some c, { w with oracle := tail,
                        files := w.files.set h ⟨false, cs⟩ }) := by
  unfold closeFile takeOracle
  rw [hget, hor]
  simp

/-- A rename whose oracle head orders a failure pops it, records no rename
and returns the cause. -/
theorem renameOp_fail (o n : String) (c : String)
    (tail : List (Option String)) (w : World)
    (hor : w.oracle = some c :: tail) :
    renameOp o n w = (some c, { w with oracle := tail }) := by
  unfold renameOp takeOracle
  rw [hor]

/-- An open whose oracle head orders a failure pops it, allocates no handle
and returns the cause. -/
theorem openNew_fail (c : String) (tail : List (Option String)) (w : World)
    (hor : w.oracle = some c :: tail) :
    openNew w = (Except.error c, { w with oracle := tail }) := by
  unfold openNew takeOracle
  rw [hor]

/-- Closing an open handle with a success oracle marks it closed. -/
theorem closeFile_ok (h : Handle) (cs : List String) (w : World)
    (hget : w.files.get? h = some ⟨true, cs⟩) (hor : w.oracle = []) :
    closeFile h w =
      (none, { w with files := w.files.set h ⟨false, cs⟩ }) := by
  unfold closeFile
  rw [hget, takeOracle_nil w hor]
  simp

/-- Renaming with a success oracle records the rename. -/
theorem renameOp_ok (o n : String) (w : World) (hor : w.oracle = []) :
    renameOp o n w = (none, { w with renames := w.renames ++ [(o, n)] }) := by
  unfold renameOp
  rw [takeOracle_nil w hor]

/-- Opening with a success oracle allocates the next handle, open, empty. -/
theorem openNew_ok (w : World) (hor : w.oracle = []) :
    openNew w =
      (Except.ok w.files.length, { w with files := w.files ++ [⟨true, []⟩] }) := by
  unfold openNew
  rw [takeOracle_nil w hor]

/-- An untracked write on an open handle with a success oracle appends the
rendered record and leaves the receiver copy untouched (any fuel). -/
theorem reallyAppendF_notrack_ok (fmt : Log → String) (fuel : Nat)
    (a : Appender) (log : Log) (h : Handle) (cs : List String) (w : World)
    (hf : a.file = some h) (hget : w.files.get? h = some ⟨true, cs⟩)
    (hor : w.oracle = []) :
    reallyAppendF fmt (fuel + 1) a log false w =
      (a, { w with files := w.files.set h ⟨true, cs ++ [fmt log]⟩ }) := by
  unfold reallyAppendF
  rw [hf]
  simp only [writeString_ok h (fmt log) cs w hget hor]

/-- A tracked write that stays at or below the threshold appends the chunk,
adds the byte count to the copy's counter and does not rotate (any fuel). -/
theorem reallyAppendF_track_ok_small (fmt : Log → String) (fuel : Nat)
    (a : Appender) (log : Log) (h : Handle) (cs : List String) (w : World)
    (hf : a.file = some h) (hget : w.files.get? h = some ⟨true, cs⟩)
    (hor : w.oracle = [])
    (hsz : (a.curFileSize + (fmt log).utf8ByteSize) % U64 ≤ a.maxFileSize) :
    reallyAppendF fmt (fuel + 1) a log true w =
      ({ a with curFileSize := (a.curFileSize + (fmt log).utf8ByteSize) % U64 },
       { w with files := w.files.set h ⟨true, cs ++ [fmt log]⟩ }) := by
  have hns : ¬ a.maxFileSize < (a.curFileSize + (fmt log).utf8ByteSize) % U64 :=
    Nat.not_lt.mpr hsz
  unfold reallyAppendF
  rw [hf]
  simp only [writeString_ok h (fmt log) cs w hget hor]
  simp [hns]

/-- With a header generator configured, an open handle and a success oracle,
`logHeaderF` appends the rendered header record to the active file and
returns the receiver copy completely unchanged — in particular the size
counter — and touches neither the rename trace nor the event trace, with no
constraint relating the header's size to the maximum file size. -/
theorem logHeaderF_some_ok (fmt : Log → String) (fuel : Nat) (a : Appender)
    (g : String) (h : Handle) (cs : List String) (w : World)
    (hg : a.headerGenerator = some g) (hf : a.file = some h)
    (hget : w.files.get? h = some ⟨true, cs⟩) (hor : w.oracle = []) :
    logHeaderF fmt (fuel + 2) a w =
      (a, { w with files :=
        w.files.set h ⟨true, cs ++ [fmt (simpleLog "header" Level.info w.ci w.clock g [])]⟩ }) := by
  unfold logHeaderF
  rw [hg]
  exact reallyAppendF_notrack_ok fmt fuel a
    (simpleLog "header" Level.info w.ci w.clock g []) h cs w hf hget hor

/-- A fully successful rotation (close, rename, create and header write all
succeed) closes the old handle, records the rename to the timestamped name,
allocates the fresh active file whose sole content is the rendered header,
and returns the receiver copy with the new handle installed — and the size
counter untouched, since `renameLogFile`'s reset lives on a copy the call
discards. -/
theorem rotate_ok (fmt : Log → String) (a : Appender) (g : String)
    (h : Handle) (cs : List String) (w : World)
    (hg : a.headerGenerator = some g) (hf : a.file = some h)
    (hget : w.files.get? h = some ⟨true, cs⟩) (hor : w.oracle = []) :
    rotate fmt a w =
      ({ a with file := some w.files.length },
       { w with
         files := (w.files.set h ⟨false, cs⟩ ++ ([⟨true, []⟩] : List FileRec)).set
           w.files.length
           ⟨true, [fmt (simpleLog "header" Level.info w.ci w.clock g [])]⟩,
         renames := w.renames ++
           [(a.absPath, newRotatedFilename a.absPath w.clock)] }) := by
  obtain ⟨fs, orc, ev, rn, ck, ci⟩ := w
  dsimp only at hget hor ⊢
  subst hor
  have h1 : closeFile h ⟨fs, [], ev, rn, ck, ci⟩ =
      (none, ⟨fs.set h ⟨false, cs⟩, [], ev, rn, ck, ci⟩) :=
    closeFile_ok h cs ⟨fs, [], ev, rn, ck, ci⟩ hget rfl
  have h2 : renameLogFile a a.absPath (newRotatedFilename a.absPath ck)
      ⟨fs.set h ⟨false, cs⟩, [], ev, rn, ck, ci⟩ =
      (true, { a with curFileSize := 0 },
       ⟨fs.set h ⟨false, cs⟩, [], ev,
        rn ++ [(a.absPath, newRotatedFilename a.absPath ck)], ck, ci⟩) := by
    unfold renameLogFile
    rw [renameOp_ok _ _ _ rfl]
  have h3 : openNew
      ⟨fs.set h ⟨false, cs⟩, [], ev,
       rn ++ [(a.absPath, newRotatedFilename a.absPath ck)], ck, ci⟩ =
      (Except.ok fs.length,
       ⟨fs.set h ⟨false, cs⟩ ++ [⟨true, []⟩], [], ev,
        rn ++ [(a.absPath, newRotatedFilename a.absPath ck)], ck, ci⟩) := by
    rw [openNew_ok ⟨fs.set h ⟨false, cs⟩, [], ev,
      rn ++ [(a.absPath, newRotatedFilename a.absPath ck)], ck, ci⟩ rfl]
    simp [List.length_set]
  have h4 : logHeaderF fmt 3 { a with file := some fs.length }
      ⟨fs.set h ⟨false, cs⟩ ++ [⟨true, []⟩], [], ev,
       rn ++ [(a.absPath, newRotatedFilename a.absPath ck)], ck, ci⟩ =
      ({ a with file := some fs.length },
       ⟨(fs.set h ⟨false, cs⟩ ++ ([⟨true, []⟩] : List FileRec)).set fs.length
          ⟨true, [fmt (simpleLog "header" Level.info ci ck g [])]⟩, [], ev,
        rn ++ [(a.absPath, newRotatedFilename a.absPath ck)], ck, ci⟩) := by
    have hget1 : ((⟨fs.set h ⟨false, cs⟩ ++ [⟨true, []⟩], [], ev,
        rn ++ [(a.absPath, newRotatedFilename a.absPath ck)], ck, ci⟩ : World)).files.get?
          fs.length = some ⟨true, []⟩ := by
      dsimp only
      rw [show fs.length = (fs.set h ⟨false, cs⟩).length by rw [List.length_set]]
      exact List.get?_concat_length _ _
    have := logHeaderF_some_ok fmt 1 { a with file := some fs.length } g fs.length []
      ⟨fs.set h ⟨false, cs⟩ ++ [⟨true, []⟩], [], ev,
       rn ++ [(a.absPath, newRotatedFilename a.absPath ck)], ck, ci⟩
      hg rfl hget1 rfl
    simpa using this
  unfold rotate rotateF
  rw [hf]
  simp only [h1, h2, h3, h4]

end Lemmas

/-- C8: a write performed while the file handle is null attempts nothing,
reports exactly one `NoFileError` to the error sink, drops the record, and
leaves the receiver copy (counter included) and the rest of the world
unchanged. -/
theorem noFile_fast_fail (fmt : Log → String) (a : Appender) (log : Log)
    (trackSize : Bool) (w : World) (hf : a.file = none) :
    reallyAppend fmt a log trackSize w =
      (a, { w with events := w.events ++ [AppErr.noFileError] }) := by
  unfold reallyAppend reallyAppendF
  rw [hf]
  rfl

/-- C8 witness: at a concrete null-handle state the record is dropped with a
single reported `NoFileError` and no other change. -/
theorem noFile_fast_fail_witness :
    reallyAppend fmtW ⟨3, none, "/x", 2, none⟩ lW true wW =
      (⟨3, none, "/x", 2, none⟩,
       ⟨[⟨true, []⟩], [], [AppErr.noFileError], [], tmW, none⟩) :=
  noFile_fast_fail fmtW ⟨3, none, "/x", 2, none⟩ lW true wW rfl

/-- C9: `Append` returns a nil error unconditionally, and every run-time
failure surfaces only through the error handler, never synchronously to a
producer (the write path returns no error value at all): a failed write is
reported as a `WriteError` carrying the file path and the underlying cause
with the record dropped (no file content changes, no retry — exactly one
oracle outcome is consumed) and the receiver copy unchanged; a write with a
nil handle is reported as `NoFileError`; and in a rotation whose close,
rename and reopen all fail, the `CloseError`, `RenameError` and `OpenError`
are each delivered in order, carrying the relevant path(s) — both paths for
the rename — and causes, while the loop continues normally with the
receiver copy returned. -/
theorem async_error_delivery (fmt : Log → String) :
    (∀ (self : Appender) (q : List Log) (lg : Log)
        (caller : Option (String × Int)) (now : Tm),
        (Append self q lg caller now).2 = none) ∧
    (∀ (a : Appender) (log : Log) (ts : Bool) (h : Handle) (cs : List String)
        (c : String) (rest : List (Option String)) (w : World),
        a.file = some h → w.files.get? h = some ⟨true, cs⟩ →
        w.oracle = some c :: rest →
        reallyAppend fmt a log ts w =
          (a, { w with oracle := rest,
                       events := w.events ++ [AppErr.writeError a.absPath c] })) ∧
    (∀ (a : Appender) (log : Log) (ts : Bool) (w : World),
        a.file = none →
        reallyAppend fmt a log ts w =
          (a, { w with events := w.events ++ [AppErr.noFileError] })) ∧
    (∀ (a : Appender) (log : Log) (h : Handle) (cs : List String)
        (c1 c2 c3 : String) (rest : List (Option String)) (w : World),
        a.file = some h → w.files.get? h = some ⟨true, cs⟩ →
        w.oracle = none :: some c1 :: some c2 :: some c3 :: rest →
        a.maxFileSize < (a.curFileSize + (fmt log).utf8ByteSize) % U64 →
        reallyAppend fmt a log true w =
          ({ a with curFileSize := (a.curFileSize + (fmt log).utf8ByteSize) % U64 },
           { w with files := w.files.set h ⟨false, cs ++ [fmt log]⟩,
                    oracle := rest,
                    events := w.events ++
                      [AppErr.closeError a.absPath c1,
                       AppErr.renameError a.absPath
                         (newRotatedFilename a.absPath w.clock) c2,
                       AppErr.openError a.absPath c3] })) := by
  refine ⟨?_, ?_, ?_, ?_⟩
  · intro self q lg caller now
    unfold Append
    split <;> rfl
  · intro a log ts h cs c rest w hf hget hor
    unfold reallyAppend reallyAppendF
    rw [hf]
    simp only [writeString_fail h (fmt log) cs c rest w hget hor]
    rfl
  · intro a log ts w hf
    unfold reallyAppend reallyAppendF
    rw [hf]
    rfl
  · intro a log h cs c1 c2 c3 rest w hf hget hor hbig
    obtain ⟨fs, orc, ev, rn, ck, ci⟩ := w
    dsimp only at hget hor hbig ⊢
    subst hor
    have h1 : writeString h (fmt log)
        ⟨fs, none :: some c1 :: some c2 :: some c3 :: rest, ev, rn, ck, ci⟩ =
        (none, ⟨fs.set h ⟨true, cs ++ [fmt log]⟩,
          some c1 :: some c2 :: some c3 :: rest, ev, rn, ck, ci⟩) :=
      writeString_ok_cons h (fmt log) cs _
        ⟨fs, none :: some c1 :: some c2 :: some c3 :: rest, ev, rn, ck, ci⟩
        hget rfl
    have hget2 : (fs.set h ⟨true, cs ++ [fmt log]⟩).get? h =
        some ⟨true, cs ++ [fmt log]⟩ := by
      rw [List.get?_set_eq, hget]
      rfl
    have h2 : closeFile h ⟨fs.set h ⟨true, cs ++ [fmt log]⟩,
        some c1 :: some c2 :: some c3 :: rest, ev, rn, ck, ci⟩ =
        (some c1,
         ⟨(fs.set h ⟨true, cs ++ [fmt log]⟩).set h ⟨false, cs ++ [fmt log]⟩,
          some c2 :: some c3 :: rest, ev, rn, ck, ci⟩) :=
      closeFile_fail_cons h (cs ++ [fmt log]) c1 _
        ⟨fs.set h ⟨true, cs ++ [fmt log]⟩,
         some c1 :: some c2 :: some c3 :: rest, ev, rn, ck, ci⟩
        hget2 rfl
    have h3 : ∀ s : Appender, renameLogFile s a.absPath
        (newRotatedFilename a.absPath ck)
        ⟨(fs.set h ⟨true, cs ++ [fmt log]⟩).set h ⟨false, cs ++ [fmt log]⟩,
         some c2 :: some c3 :: rest,
         ev ++ [AppErr.closeError a.absPath c1], rn, ck, ci⟩ =
        (false, { s with curFileSize := 0, file := none },
         ⟨(fs.set h ⟨true, cs ++ [fmt log]⟩).set h ⟨false, cs ++ [fmt log]⟩,
          rest,
          ev ++ [AppErr.closeError a.absPath c1,
            AppErr.renameError a.absPath (newRotatedFilename a.absPath ck) c2,
            AppErr.openError a.absPath c3], rn, ck, ci⟩) := by
      intro s
      unfold renameLogFile
      rw [renameOp_fail a.absPath (newRotatedFilename a.absPath ck) c2 _ _ rfl]
      dsimp only [emit]
      rw [openNew_fail c3 _
        ⟨(fs.set h ⟨true, cs ++ [fmt log]⟩).set h ⟨false, cs ++ [fmt log]⟩,
         some c3 :: rest,
         ev ++ [AppErr.closeError a.absPath c1] ++
           [AppErr.renameError a.absPath (newRotatedFilename a.absPath ck) c2],
         rn, ck, ci⟩ rfl]
      dsimp only [emit]
      simp
    unfold reallyAppend reallyAppendF rotateF
    rw [hf]
    simp only [h1]
    rw [if_pos hbig]
    simp only [hf, h2]
    dsimp only [emit]
    simp only [h3]
    simp [List.set_set]

/-- C9 witness: `Append` acknowledges; a concrete failing write surfaces only
as a `WriteError` with path and cause; a nil-handle write surfaces as
`NoFileError`; and a concrete rotation whose close, rename and reopen fail
delivers `CloseError`, `RenameError` and `OpenError` with their paths and
causes while the loop continues. -/
theorem async_error_delivery_witness :
    (Append ⟨3, some 0, "/x", 2, none⟩ [] lW none tmW).2 = none ∧
    reallyAppend fmtW ⟨3, some 0, "/x", 2, none⟩ lW true
        ⟨[⟨true, []⟩], [some "EIO"], [], [], tmW, none⟩ =
      (⟨3, some 0, "/x", 2, none⟩,
       ⟨[⟨true, []⟩], [], [AppErr.writeError "/x" "EIO"], [], tmW, none⟩) ∧
    reallyAppend fmtW ⟨7, none, "/y", 1, none⟩ lW false
        ⟨[], [], [], [], tmW, none⟩ =
      (⟨7, none, "/y", 1, none⟩,
       ⟨[], [], [AppErr.noFileError], [], tmW, none⟩) ∧
    reallyAppend fmtW ⟨3, some 0, "/x", 0, none⟩ lW true
        ⟨[⟨true, []⟩], [none, some "EBADF", some "EACCES", some "ENOSPC"],
         [], [], tmW, none⟩ =
      (⟨3, some 0, "/x", 5, none⟩,
       ⟨[⟨false, ["aaaaa"]⟩], [],
        [AppErr.closeError "/x" "EBADF",
         AppErr.renameError "/x" "/x.2026-01-02T03-04-05" "EACCES",
         AppErr.openError "/x" "ENOSPC"], [], tmW, none⟩) := by
  have h := async_error_delivery fmtW
  exact ⟨h.1 ⟨3, some 0, "/x", 2, none⟩ [] lW none tmW,
    h.2.1 ⟨3, some 0, "/x", 2, none⟩ lW true 0 [] "EIO" []
      ⟨[⟨true, []⟩], [some "EIO"], [], [], tmW, none⟩ rfl rfl rfl,
    h.2.2.1 ⟨7, none, "/y", 1, none⟩ lW false ⟨[], [], [], [], tmW, none⟩ rfl,
    h.2.2.2 ⟨3, some 0, "/x", 0, none⟩ lW 0 [] "EBADF" "EACCES" "ENOSPC" []
      ⟨[⟨true, []⟩], [none, some "EBADF", some "EACCES", some "ENOSPC"],
       [], [], tmW, none⟩ rfl rfl rfl (by decide)⟩

/-- C5: if the queue has free capacity the record is enqueued directly; if it
is full, the overflow-warning record (naming the capacity in its arguments
and message) is enqueued first and the original record right after it; in
either case the existing queue order is preserved and the record is never
dropped. -/
theorem append_overflow (self : Appender) (q : List Log) (log : Log)
    (caller : Option (String × Int)) (now : Tm) :
    (q.length < APPEND_CHANNEL_SIZE →
      (Append self q log caller now).1 = q ++ [log]) ∧
    (¬ q.length < APPEND_CHANNEL_SIZE →
      (Append self q log caller now).1 = q ++ [fullWarningLog caller now, log] ∧
      (fullWarningLog caller now).args = [APPEND_CHANNEL_SIZE] ∧
      (fullWarningLog caller now).messageFmt =
        "appendCh is full. You may want to increase APPEND_CHANNEL_SIZE (currently %d).") ∧
    log ∈ (Append self q log caller now).1 ∧
    ∃ t, (Append self q log caller now).1 = q ++ t := by
  unfold Append
  by_cases hq : q.length < APPEND_CHANNEL_SIZE
  · rw [if_pos hq]
    refine ⟨fun _ => rfl, fun hc => absurd hq hc, ?_, [log], rfl⟩
    simp
  · rw [if_neg hq]
    refine ⟨fun hc => absurd hc hq, fun _ => ⟨rfl, rfl, rfl⟩, ?_,
      [fullWarningLog caller now, log], rfl⟩
    simp

/-- C5 witness: a full queue (4096 records): the warning precedes the record,
names the capacity, and nothing is dropped. -/
theorem append_overflow_witness :
    (Append ⟨3, some 0, "/x", 2, none⟩ (List.replicate 4096 lW) lW none tmW).1 =
      List.replicate 4096 lW ++ [fullWarningLog none tmW, lW] ∧
    (fullWarningLog none tmW).args = [APPEND_CHANNEL_SIZE] := by
  have h := (append_overflow ⟨3, some 0, "/x", 2, none⟩
    (List.replicate 4096 lW) lW none tmW).2.1
    (by rw [List.length_replicate]; exact Nat.lt_irrefl _)
  exact ⟨h.1, h.2.1⟩

/-- Invariant of the drain scenario: all records were submitted before
`Close` was called (they sit in the queue of the initial configuration) and
the writer loop runs with an open handle and a success oracle.  The loop's
appender copy never changes; the file holds exactly the initial content plus
the renderings of the records processed so far; a positive drain reply or a
returned closer implies the queue is empty. -/
def DrainInv (fmt : Log → String) (a : Appender) (h : Handle)
    (init : List String) (submitted : List Log) (c : Config) : Prop :=
  c.self = a ∧ c.w.oracle = [] ∧
  ((c.closer = CloserSt.gotReply true ∨ c.closer = CloserSt.done) → c.queue = []) ∧
  ∃ processed, submitted = processed ++ c.queue ∧
    c.w.files.get? h = some ⟨true, init ++ processed.map fmt⟩

/-- One loop step preserves the drain invariant, provided no record can push
the (constant) loop-copy counter over the threshold. -/
theorem DrainInv_step (fmt : Log → String) (a : Appender) (h : Handle)
    (init : List String) (submitted : List Log)
    (hf : a.file = some h)
    (hsz : ∀ log ∈ submitted,
      (a.curFileSize + (fmt log).utf8ByteSize) % U64 ≤ a.maxFileSize)
    (c c' : Config) (hstep : loopStep fmt c c')
    (hinv : DrainInv fmt a h init submitted c) :
    DrainInv fmt a h init submitted c' := by
  obtain ⟨hself, hor, hcl, processed, hsub, hget⟩ := hinv
  cases hstep with
  | recvDirty log rest hns hq =>
      have hmem : log ∈ submitted := by
        rw [hsub, hq]; exact List.mem_append.mpr (Or.inr (List.mem_cons_self _ _))
      have hws : reallyAppend fmt c.self log true c.w =
          ({ a with curFileSize := (a.curFileSize + (fmt log).utf8ByteSize) % U64 },
           { c.w with files :=
             c.w.files.set h ⟨true, (init ++ processed.map fmt) ++ [fmt log]⟩ }) := by
        rw [hself]
        exact reallyAppendF_track_ok_small fmt 3 a log h (init ++ processed.map fmt)
          c.w hf hget hor (hsz log hmem)
      refine ⟨hself, ?_, ?_, processed ++ [log], ?_, ?_⟩
      · rw [hws]
        exact hor
      · intro hc
        have := hcl hc
        rw [hq] at this
        cases this
      · rw [hsub, hq]
        simp
      · rw [hws]
        dsimp only
        rw [List.get?_set_eq, hget]
        simp
  | recvClean log rest hns hq =>
      have hmem : log ∈ submitted := by
        rw [hsub, hq]; exact List.mem_append.mpr (Or.inr (List.mem_cons_self _ _))
      have hws : reallyAppend fmt c.self log true c.w =
          ({ a with curFileSize := (a.curFileSize + (fmt log).utf8ByteSize) % U64 },
           { c.w with files :=
             c.w.files.set h ⟨true, (init ++ processed.map fmt) ++ [fmt log]⟩ }) := by
        rw [hself]
        exact reallyAppendF_track_ok_small fmt 3 a log h (init ++ processed.map fmt)
          c.w hf hget hor (hsz log hmem)
      refine ⟨hself, ?_, ?_, processed ++ [log], ?_, ?_⟩
      · rw [hws]
        exact hor
      · intro hc
        have := hcl hc
        rw [hq] at this
        cases this
      · rw [hsub, hq]
        simp
      · rw [hws]
        dsimp only
        rw [List.get?_set_eq, hget]
        simp
  | syncStep hns hq =>
      exact ⟨hself, hor, hcl, processed, hsub, hget⟩
  | replyStep hns hask =>
      refine ⟨hself, hor, ?_, processed, hsub, hget⟩
      rintro (hc | hc)
      · have hb : decide (c.queue.length ≤ 0) = true := by
          injection hc
        exact List.eq_nil_of_length_eq_zero (Nat.le_zero.mp (of_decide_eq_true hb))
      · cases hc
  | closerRetry hgr =>
      refine ⟨hself, hor, ?_, processed, hsub, hget⟩
      rintro (hc | hc) <;> cases hc
  | closerDone hgr =>
      exact ⟨hself, hor, fun _ => hcl (Or.inl hgr), processed, hsub, hget⟩

/-- Delivery completeness of the drain protocol in the absence of rotation:
if all records are in
the queue when the drain request is pending (all submissions completed
before `Close`), the handle is open, every system call succeeds and no
record pushes the loop's counter over the threshold, then whenever the
closer has returned — `waitUntilEmpty` got a positive reply — the queue is
empty and the active file contains its initial content followed by every
submitted record's rendering, in submission order. -/
theorem close_drains (fmt : Log → String) (a : Appender) (h : Handle)
    (init : List String) (submitted : List Log) (w0 : World) (c : Config)
    (hf : a.file = some h)
    (hget : w0.files.get? h = some ⟨true, init⟩)
    (hor : w0.oracle = [])
    (hsz : ∀ log ∈ submitted,
      (a.curFileSize + (fmt log).utf8ByteSize) % U64 ≤ a.maxFileSize)
    (hreach : loopSteps fmt ⟨a, submitted, false, CloserSt.asked, w0⟩ c)
    (hdone : c.closer = CloserSt.done) :
    c.queue = [] ∧
    c.w.files.get? h = some ⟨true, init ++ submitted.map fmt⟩ := by
  have hinv : DrainInv fmt a h init submitted c := by
    clear hdone
    unfold loopSteps at hreach
    induction hreach with
    | refl =>
        refine ⟨rfl, hor, ?_, [], rfl, by simpa using hget⟩
        rintro (hc | hc) <;> cases hc
    | tail hs hstep ih =>
        exact DrainInv_step fmt a h init submitted hf hsz _ _ hstep ih
  obtain ⟨hself, hor', hcl, processed, hsub, hget'⟩ := hinv
  have hq : c.queue = [] := hcl (Or.inr hdone)
  rw [hq] at hsub
  rw [List.append_nil] at hsub
  refine ⟨hq, ?_⟩
  rw [hsub]
  exact hget'

/-- World after the single witness record has been written. -/
def wD : World := ⟨[⟨true, ["aaaaa"]⟩], [], [], [], tmW, none⟩

/-- Drain-dialogue configurations of the C1 witness run. -/
def cD0 : Config := ⟨aW2, [lW], false, CloserSt.asked, wW⟩

/-- The closer received a negative reply (queue not yet empty). -/
def cD1 : Config := ⟨aW2, [lW], false, CloserSt.gotReply false, wW⟩

/-- The record has been processed; the loop is dirty. -/
def cD3 : Config := ⟨aW2, [], true, CloserSt.asked, wD⟩

/-- After the idle-time sync. -/
def cD4 : Config := ⟨aW2, [], false, CloserSt.asked, wD⟩

/-- The closer received a positive reply. -/
def cD5 : Config := ⟨aW2, [], false, CloserSt.gotReply true, wD⟩

/-- The closer has returned. -/
def cD6 : Config := ⟨aW2, [], false, CloserSt.done, wD⟩

/-- C1 witness: one record, a full drain dialogue (ask, negative reply,
retry, process the record, sync, ask again, positive reply, return): at the
returned-closer configuration the queue is empty and the file contains the
record. -/
theorem close_drains_witness :
    cD6.queue = [] ∧
    cD6.w.files.get? 0 = some ⟨true, [] ++ [lW].map fmtW⟩ := by
  have s1 : loopStep fmtW cD0 cD1 := loopStep.replyStep cD0 (by rfl) (by rfl)
  have s2 : loopStep fmtW cD1 cD0 := loopStep.closerRetry cD1 (by rfl)
  have e3 : cD3 =
      { cD0 with
        queue := [],
        needsSync := true,
        w := (reallyAppend fmtW cD0.self lW true cD0.w).2 } := by decide
  have s3 : loopStep fmtW cD0 cD3 := by
    rw [e3]
    exact loopStep.recvClean cD0 lW [] (by rfl) (by rfl)
  have s4 : loopStep fmtW cD3 cD4 := loopStep.syncStep cD3 (by rfl) (by rfl)
  have s5 : loopStep fmtW cD4 cD5 := loopStep.replyStep cD4 (by rfl) (by rfl)
  have s6 : loopStep fmtW cD5 cD6 := loopStep.closerDone cD5 (by rfl)
  exact close_drains fmtW aW2 0 [] [lW] wW cD6 (by rfl) (by rfl) (by rfl)
    (by intro l hl; simp at hl; subst hl; decide)
    (Relation.ReflTransGen.tail
      (Relation.ReflTransGen.tail
        (Relation.ReflTransGen.tail
          (Relation.ReflTransGen.tail
            (Relation.ReflTransGen.tail (Relation.ReflTransGen.single s1) s2)
            s3)
          s4)
        s5)
      s6)
    (by rfl)

/-- Second sample record, rendering to "bbbbb". -/
def lB2 : Log := ⟨"p", Level.info, "f", 1, tmW, "bbbbb", []⟩

/-- Appender whose first tracked write crosses the 3-byte threshold. -/
def aB : Appender := ⟨3, some 0, "/x", 0, none⟩

/-- World after the first record triggered the rotation: the original handle
is closed with the first record as content, the fresh file exists but no
appender state references it, the rename is recorded. -/
def wB1 : World :=
  ⟨[⟨false, ["aaaaa"]⟩, ⟨true, []⟩], [], [],
   [("/x", "/x.2026-01-02T03-04-05")], tmW, none⟩

/-- World after the second record was dropped against the closed handle. -/
def wB2 : World :=
  ⟨[⟨false, ["aaaaa"]⟩, ⟨true, []⟩], [],
   [AppErr.writeError "/x" "file already closed"],
   [("/x", "/x.2026-01-02T03-04-05")], tmW, none⟩

/-- Initial configuration of the delivery-incompleteness run: both records
submitted, the drain request pending. -/
def cB0 : Config := ⟨aB, [lW, lB2], false, CloserSt.asked, wW⟩

/-- After the first record (rotation happened, its new handle discarded). -/
def cB1 : Config := ⟨aB, [lB2], true, CloserSt.asked, wB1⟩

/-- After the second record was dropped. -/
def cB2 : Config := ⟨aB, [], true, CloserSt.asked, wB2⟩

/-- After the idle-time sync. -/
def cB3 : Config := ⟨aB, [], false, CloserSt.asked, wB2⟩

/-- The closer got a positive reply. -/
def cB4 : Config := ⟨aB, [], false, CloserSt.gotReply true, wB2⟩

/-- The closer has returned. -/
def cB5 : Config := ⟨aB, [], false, CloserSt.done, wB2⟩

/-- C1: delivery incompleteness on the code as written.  With a 3-byte
maximum, the first record's write (5 bytes, every system call succeeding)
triggers a rotation whose fresh handle lives only on a discarded per-call
copy, so the second record's write hits the original handle — closed by the
rotation — fails, and the record is dropped; the drain dialogue still
completes and the closer returns with the queue drained but the second
record present in no file, active or rotated. -/
theorem delivery_incomplete_after_rotation :
    loopSteps fmtW cB0 cB5 ∧
    cB5.closer = CloserSt.done ∧ cB5.queue = [] ∧
    fmtW lB2 = "bbbbb" ∧
    cB5.w.files = [⟨false, ["aaaaa"]⟩, ⟨true, []⟩] ∧
    (∀ f ∈ cB5.w.files, "bbbbb" ∉ f.chunks) ∧
    cB5.w.events = [AppErr.writeError "/x" "file already closed"] := by
  have e1 : cB1 =
      { cB0 with
        queue := [lB2],
        needsSync := true,
        w := (reallyAppend fmtW cB0.self lW true cB0.w).2 } := by decide
  have s1 : loopStep fmtW cB0 cB1 := by
    rw [e1]
    exact loopStep.recvClean cB0 lW [lB2] (by rfl) (by rfl)
  have e2 : cB2 =
      { cB1 with
        queue := [],
        w := (reallyAppend fmtW cB1.self lB2 true cB1.w).2 } := by decide
  have s2 : loopStep fmtW cB1 cB2 := by
    rw [e2]
    exact loopStep.recvDirty cB1 lB2 [] (by rfl) (by rfl)
  have s3 : loopStep fmtW cB2 cB3 := loopStep.syncStep cB2 (by rfl) (by rfl)
  have e4 : cB4 =
      { cB3 with closer := CloserSt.gotReply (decide (cB3.queue.length ≤ 0)) } := by
    decide
  have s4 : loopStep fmtW cB3 cB4 := by
    rw [e4]
    exact loopStep.replyStep cB3 (by rfl) (by rfl)
  have s5 : loopStep fmtW cB4 cB5 := loopStep.closerDone cB4 (by rfl)
  exact ⟨Relation.ReflTransGen.tail
      (Relation.ReflTransGen.tail
        (Relation.ReflTransGen.tail
          (Relation.ReflTransGen.tail (Relation.ReflTransGen.single s1) s2)
          s3)
        s4)
      s5,
    by decide, by decide, by decide, by decide, by decide, by decide⟩

/-- C4: with a header generator configured, the header is emitted through the
ordinary write path with size tracking disabled: `logHeader` appends the
rendered header record to the active file and returns the receiver copy —
size counter included — completely unchanged, touching neither the rename
trace nor the event trace (so it can never trigger a rotation, with no
hypothesis relating the header's size to the maximum); `New` emits it into
the freshly opened file at construction with the counter still the stat'ed
initial size; and a successful rotation re-emits it as the sole initial
content of the fresh active file. -/
theorem header_uncounted_and_reemitted (fmt : Log → String) (a : Appender)
    (g : String) (h : Handle) (cs : List String) (w : World)
    (p : String) (maxS initSize : Nat)
    (hg : a.headerGenerator = some g) (hf : a.file = some h)
    (hget : w.files.get? h = some ⟨true, cs⟩) (hor : w.oracle = []) :
    logHeader fmt a w =
      (a, { w with files :=
        w.files.set h ⟨true, cs ++ [fmt (simpleLog "header" Level.info w.ci w.clock g [])]⟩ }) ∧
    New fmt p maxS (some g) initSize w =
      (Except.ok ⟨maxS, some w.files.length, p, initSize % U64, some g⟩,
       { w with
         files := (w.files ++ ([⟨true, []⟩] : List FileRec)).set w.files.length
           ⟨true, [fmt (simpleLog "header" Level.info w.ci w.clock g [])]⟩ }) ∧
    (rotate fmt a w).2.files.get? w.files.length =
      some ⟨true, [fmt (simpleLog "header" Level.info w.ci w.clock g [])]⟩ ∧
    (rotate fmt a w).1 = { a with file := some w.files.length } := by
  refine ⟨?_, ?_, ?_, ?_⟩
  · unfold logHeader
    exact logHeaderF_some_ok fmt 2 a g h cs w hg hf hget hor
  · obtain ⟨fs, orc, ev, rn, ck, ci⟩ := w
    dsimp only at hget hor ⊢
    subst hor
    have hopen : openNew ⟨fs, [], ev, rn, ck, ci⟩ =
        (Except.ok fs.length, ⟨fs ++ [⟨true, []⟩], [], ev, rn, ck, ci⟩) :=
      openNew_ok ⟨fs, [], ev, rn, ck, ci⟩ rfl
    have hlh : logHeader fmt ⟨maxS, some fs.length, p, initSize % U64, some g⟩
        ⟨fs ++ [⟨true, []⟩], [], ev, rn, ck, ci⟩ =
        (⟨maxS, some fs.length, p, initSize % U64, some g⟩,
         ⟨(fs ++ ([⟨true, []⟩] : List FileRec)).set fs.length
            ⟨true, [fmt (simpleLog "header" Level.info ci ck g [])]⟩,
          [], ev, rn, ck, ci⟩) := by
      unfold logHeader
      have := logHeaderF_some_ok fmt 2 ⟨maxS, some fs.length, p, initSize % U64, some g⟩
        g fs.length [] ⟨fs ++ [⟨true, []⟩], [], ev, rn, ck, ci⟩
        rfl rfl (List.get?_concat_length fs ⟨true, []⟩) rfl
      simpa using this
    unfold New
    simp only [hopen, hlh]
  · rw [rotate_ok fmt a g h cs w hg hf hget hor]
    dsimp only
    rw [List.get?_set_eq]
    rw [show w.files.length = (w.files.set h ⟨false, cs⟩).length by rw [List.length_set]]
    rw [List.get?_concat_length]
    rfl
  · rw [rotate_ok fmt a g h cs w hg hf hget hor]

/-- C4 witness: concrete appender whose 10-byte header exceeds the 3-byte
maximum: the header is written uncounted with no rotation side effects, is
present in the construction-time file, and is the sole initial content of
the rotated-into file. -/
theorem header_uncounted_and_reemitted_witness :
    logHeader fmtW ⟨3, some 0, "/x", 2, some "HHHHHHHHHH"⟩ wW =
      (⟨3, some 0, "/x", 2, some "HHHHHHHHHH"⟩,
       ⟨[⟨true, ["HHHHHHHHHH"]⟩], [], [], [], tmW, none⟩) ∧
    New fmtW "/x" 3 (some "HHHHHHHHHH") 2 wW =
      (Except.ok ⟨3, some 1, "/x", 2, some "HHHHHHHHHH"⟩,
       ⟨[⟨true, []⟩, ⟨true, ["HHHHHHHHHH"]⟩], [], [], [], tmW, none⟩) ∧
    (rotate fmtW ⟨3, some 0, "/x", 2, some "HHHHHHHHHH"⟩ wW).2.files.get? 1 =
      some ⟨true, ["HHHHHHHHHH"]⟩ ∧
    (rotate fmtW ⟨3, some 0, "/x", 2, some "HHHHHHHHHH"⟩ wW).1 =
      ⟨3, some 1, "/x", 2, some "HHHHHHHHHH"⟩ :=
  header_uncounted_and_reemitted fmtW ⟨3, some 0, "/x", 2, some "HHHHHHHHHH"⟩
    "HHHHHHHHHH" 0 [] wW "/x" 3 2 rfl rfl rfl rfl

/-- C7 counterexample: at a concrete state, after `Close` has returned the
handle field still references the (now closed) file, so the next write IS
attempted against the closed file and is reported as a `WriteError` — not as
the claimed `NoFileError`. -/
theorem close_then_write_not_noFile :
    (reallyAppend fmtW ⟨100, some 0, "/x", 0, none⟩ lW true
        (Close ⟨100, some 0, "/x", 0, none⟩ wW).2).2.events =
      [AppErr.writeError "/x" "file already closed"] ∧
    AppErr.noFileError ∉
      (reallyAppend fmtW ⟨100, some 0, "/x", 0, none⟩ lW true
        (Close ⟨100, some 0, "/x", 0, none⟩ wW).2).2.events := by
  decide

/-- C7 amended: after `Close` has returned, the appender still holds the now
closed handle; every subsequent write is attempted on it, fails
deterministically, and is reported to the error sink as a `WriteError`
carrying the path and the cause — not as the NoFile condition, which is
reserved for a null handle. -/
theorem post_close_write_writeError (fmt : Log → String) (a : Appender)
    (log : Log) (trackSize : Bool) (h : Handle) (cs : List String) (w : World)
    (hf : a.file = some h) (hget : w.files.get? h = some ⟨true, cs⟩)
    (hor : w.oracle = []) :
    (Close a w).1 = none ∧
    (Close a w).2.files.get? h = some ⟨false, cs⟩ ∧
    reallyAppend fmt a log trackSize (Close a w).2 =
      (a, { (Close a w).2 with events :=
              (Close a w).2.events ++
                [AppErr.writeError a.absPath "file already closed"] }) := by
  have hclose : Close a w = (none, { w with files := w.files.set h ⟨false, cs⟩ }) := by
    unfold Close
    rw [hf]
    exact closeFile_ok h cs w hget hor
  have hget2 : (Close a w).2.files.get? h = some ⟨false, cs⟩ := by
    rw [hclose]
    simp only []
    rw [List.get?_set_eq, hget]
    rfl
  refine ⟨by rw [hclose], hget2, ?_⟩
  unfold reallyAppend reallyAppendF
  rw [hf]
  simp only [writeString_closed h (fmt log) cs (Close a w).2 hget2]
  rfl

/-- C7 amended witness: concrete post-Close write, reported as `WriteError`. -/
theorem post_close_write_writeError_witness :
    (Close ⟨100, some 0, "/x", 0, none⟩ wW).1 = none ∧
    (Close ⟨100, some 0, "/x", 0, none⟩ wW).2.files.get? 0 = some ⟨false, []⟩ ∧
    reallyAppend fmtW ⟨100, some 0, "/x", 0, none⟩ lW true
        (Close ⟨100, some 0, "/x", 0, none⟩ wW).2 =
      (⟨100, some 0, "/x", 0, none⟩,
       ⟨[⟨false, []⟩], [], [AppErr.writeError "/x" "file already closed"],
        [], tmW, none⟩) :=
  post_close_write_writeError fmtW ⟨100, some 0, "/x", 0, none⟩ lW true 0 [] wW
    rfl rfl rfl

/-- C3: rotation is triggered by the concrete tracked write (the rename to
the timestamped name succeeded and a fresh active file was created), yet the
size counter observable after the rotation is 7, not 0: `renameLogFile`
resets the counter only on its own per-call copy of the receiver, which both
`rotate` and `reallyAppend` discard. -/
theorem rotation_reset_lost :
    (reallyAppend fmtW ⟨3, some 0, "/x", 2, none⟩ lW true wW).2.renames =
      [("/x", "/x.2026-01-02T03-04-05")] ∧
    (reallyAppend fmtW ⟨3, some 0, "/x", 2, none⟩ lW true wW).2.files.get? 1 =
      some ⟨true, []⟩ ∧
    (reallyAppend fmtW ⟨3, some 0, "/x", 2, none⟩ lW true wW).1.curFileSize = 7 ∧
    (reallyAppend fmtW ⟨3, some 0, "/x", 2, none⟩ lW true wW).1.curFileSize ≠ 0 ∧
    (rotate fmtW ⟨3, some 0, "/x", 7, none⟩ wW).1.curFileSize = 7 := by
  decide

/-- C6: concrete rotation with a failing rename: the `RenameError` (both
paths, cause) is reported and the original path is reopened, but the
reopened handle lives only on `renameLogFile`'s per-call copy, which
`rotate` discards — the carried-forward appender still references the
original handle, which the rotation closed, so the next write fails with a
`WriteError` and the record is dropped instead of continuing on the original
file; in the reopen-failure variant the null handle and counter reset are
likewise discarded. -/
theorem rename_failure_not_resumed :
    (reallyAppend fmtW ⟨3, some 0, "/x", 2, none⟩ lW true
        ⟨[⟨true, []⟩], [none, none, some "EACCES", none], [], [], tmW, none⟩).2.events =
      [AppErr.renameError "/x" "/x.2026-01-02T03-04-05" "EACCES"] ∧
    (reallyAppend fmtW ⟨3, some 0, "/x", 2, none⟩ lW true
        ⟨[⟨true, []⟩], [none, none, some "EACCES", none], [], [], tmW, none⟩).1.file =
      some 0 ∧
    (reallyAppend fmtW ⟨3, some 0, "/x", 2, none⟩ lW true
        ⟨[⟨true, []⟩], [none, none, some "EACCES", none], [], [], tmW, none⟩).2.files =
      [⟨false, ["aaaaa"]⟩, ⟨true, []⟩] ∧
    (reallyAppend fmtW ⟨3, some 0, "/x", 2, none⟩ lW true
        (reallyAppend fmtW ⟨3, some 0, "/x", 2, none⟩ lW true
          ⟨[⟨true, []⟩], [none, none, some "EACCES", none], [], [], tmW, none⟩).2).2.events =
      [AppErr.renameError "/x" "/x.2026-01-02T03-04-05" "EACCES",
       AppErr.writeError "/x" "file already closed"] ∧
    (reallyAppend fmtW ⟨3, some 0, "/x", 2, none⟩ lW true
        ⟨[⟨true, []⟩], [none, none, some "EACCES", some "ENOSPC"], [], [], tmW, none⟩).1.file =
      some 0 ∧
    (reallyAppend fmtW ⟨3, some 0, "/x", 2, none⟩ lW true
        ⟨[⟨true, []⟩], [none, none, some "EACCES", some "ENOSPC"], [], [], tmW, none⟩).2.events =
      [AppErr.renameError "/x" "/x.2026-01-02T03-04-05" "EACCES",
       AppErr.openError "/x" "ENOSPC"] := by
  decide

/-- Initial loop configuration of the two-record run. -/
def cW2 : Config := ⟨aW2, [lW, lW], false, CloserSt.idle, wW⟩

/-- Configuration after the first record. -/
def cW2mid : Config :=
  ⟨aW2, [lW], true, CloserSt.idle, ⟨[⟨true, ["aaaaa"]⟩], [], [], [], tmW, none⟩⟩

/-- Configuration after the second record. -/
def cW2fin : Config :=
  ⟨aW2, [], true, CloserSt.idle,
    ⟨[⟨true, ["aaaaa", "aaaaa"]⟩], [], [], [], tmW, none⟩⟩

/-- C2: the writer loop processes two size-tracked records, both written
successfully (5 bytes each, starting from initial size 0), yet the loop's
size counter still equals the initial size 0, not the claimed 0 + 5 + 5:
every `self.curFileSize += n` happens on `reallyAppend`'s per-call copy of
the value receiver and is discarded when the call returns. -/
theorem size_counter_not_accumulated :
    loopSteps fmtW cW2 cW2fin ∧
    cW2fin.w.files.get? 0 = some ⟨true, ["aaaaa", "aaaaa"]⟩ ∧
    cW2fin.self.curFileSize = aW2.curFileSize ∧
    aW2.curFileSize + ((fmtW lW).utf8ByteSize + (fmtW lW).utf8ByteSize) = 10 ∧
    cW2fin.self.curFileSize ≠ 10 := by
  have h1 : loopStep fmtW cW2 cW2mid :=
    loopStep.recvClean cW2 lW [lW] rfl rfl
  have h2 : loopStep fmtW cW2mid cW2fin :=
    loopStep.recvDirty cW2mid lW [] rfl rfl
  exact ⟨Relation.ReflTransGen.tail (Relation.ReflTransGen.single h1) h2,
    by decide, by decide, by decide, by decide⟩

/-- C10: value-receiver semantics.  Every reachable configuration of the
writer loop carries the same appender value as the initial one — the file
handle and size counter of the loop's copy (and of any caller's copy) are
never changed by any write or rotation, because each method call mutates
only its own per-call copy: `reallyAppend`'s returned copy never has a
different handle than its argument (the handle `rotate` installs is
discarded), and `rotate`'s returned copy never has a different counter (the
reset `renameLogFile` performs is discarded). -/
theorem value_receiver_no_mutation (fmt : Log → String) :
    (∀ c c' : Config, loopSteps fmt c c' → c'.self = c.self) ∧
    (∀ (a : Appender) (log : Log) (b : Bool) (w : World),
      (reallyAppend fmt a log b w).1.file = a.file ∧
      (reallyAppend fmt a log b w).1.absPath = a.absPath ∧
      (reallyAppend fmt a log b w).1.maxFileSize = a.maxFileSize) ∧
    (∀ (a : Appender) (w : World),
      (rotate fmt a w).1.curFileSize = a.curFileSize) := by
  refine ⟨?_, ?_, ?_⟩
  · intro c c' hsteps
    induction hsteps with
    | refl => rfl
    | tail hs hstep ih => cases hstep <;> simpa using ih
  · intro a log b w
    unfold reallyAppend reallyAppendF
    dsimp only
    repeat' split <;> try exact ⟨rfl, rfl, rfl⟩
  · intro a w
    unfold rotate rotateF
    dsimp only
    repeat' split <;> try rfl

/-- C10 witness: across the concrete two-record run (which writes both
records) the loop's appender value is unchanged, and the concrete
`reallyAppend` call leaves the handle of its own returned copy unchanged. -/
theorem value_receiver_no_mutation_witness :
    cW2fin.self = cW2.self ∧
    (reallyAppend fmtW aW2 lW true wW).1.file = aW2.file := by
  have h1 : loopStep fmtW cW2 cW2mid := loopStep.recvClean cW2 lW [lW] rfl rfl
  have h2 : loopStep fmtW cW2mid cW2fin := loopStep.recvDirty cW2mid lW [] rfl rfl
  exact ⟨(value_receiver_no_mutation fmtW).1 cW2 cW2fin
      (Relation.ReflTransGen.tail (Relation.ReflTransGen.single h1) h2),
    ((value_receiver_no_mutation fmtW).2.1 aW2 lW true wW).1⟩

end Slogger
